import Mathlib

/-!
Shallow embedding of the delivery coordinator of MatrixNotificationBot
(src/bot_messenger/callbacks.py together with the lookup helpers of
src/bot_messenger/chat_functions.py).

The Python coordinator is a class `Callbacks` holding three pieces of
mutable state: `received_events` (the dedup cache, a list of event-id
strings, most recent first), `rooms_pending` (a dict from room id to the
list of messages waiting for that room's encryption), and
`user_rooms_pending` (a dict from user id to the list of messages buffered
while a room creation for that user is in flight).  We model the state as
a structure, Python dicts as association lists with unique keys, and the
externally visible actions (room creation requests, message sends, history
key sharing) as an effect trace.  The only suspension point that matters
to the claims is the `await create_private_room(...)` inside
`notification`; we therefore split `notification` into the phase before
that await (`notificationPre`) and the phase after it
(`notificationPost`), and recover the sequential call as their
composition.  Message payload bytes are opaque to the coordinator and are
modelled by a natural number tag.
-/

/-- A message, mirroring `BaseMessage` in src/bot_messenger/messages.py.
Validation in the HTTP ingress guarantees exactly one of
`recipient_user_id` / `recipient_room_id` is set on messages that reach
the coordinator; the coordinator later fills in `recipient_room_id`.
The opaque payload bytes are abstracted by the `data` tag. -/
structure BaseMessage where
  recipient_user_id : Option String
  recipient_room_id : Option String
  data : Nat
  deriving DecidableEq, Repr

/-- The slice of a nio `MatrixRoom` that the coordinator reads:
its id, whether encryption is active, the joined and invited members,
and the member count. -/
structure MatrixRoom where
  room_id : String
  encrypted : Bool
  users : List String
  invited_users : List String
  member_count : Nat
  deriving DecidableEq, Repr

/-- The slice of the bot configuration read by the callbacks. -/
structure Config where
  notifications_room : Option String
  deriving DecidableEq, Repr

/-- The fields of a nio `RoomMemberEvent` read by `Callbacks.member`. -/
structure RoomMemberEvent where
  event_id : String
  sender : String
  membership : String
  state_key : String
  deriving DecidableEq, Repr

/-- Association-list lookup, modelling Python `d[k]` / `k in d`
(keys are unique in every dict the coordinator builds). -/
def dictGet {α : Type} : List (String × α) → String → Option α
  | [], _ => none
  | (k', v) :: rest, k => if k = k' then some v else dictGet rest k

/-- Python `k in d`. -/
def dictMem {α : Type} (m : List (String × α)) (k : String) : Bool :=
  (dictGet m k).isSome

/-- Python `d[k] = v`: replace the value at an existing key (keeping its
position), or append a fresh key at the end. -/
def dictSet {α : Type} : List (String × α) → String → α → List (String × α)
  | [], k, v => [(k, v)]
  | (k', v') :: rest, k, v =>
      if k = k' then (k', v) :: rest else (k', v') :: dictSet rest k v

/-- Python `del d[k]` / `d.pop(k)`: remove the entry with key `k`.  Keys
are unique in every dict the coordinator builds, so removing every
occurrence coincides with Python's single-binding delete. -/
def dictDel {α : Type} : List (String × α) → String → List (String × α)
  | [], _ => []
  | (k', v') :: rest, k =>
      if k = k' then dictDel rest k else (k', v') :: dictDel rest k

/-- The mutable state of the `Callbacks` instance
(src/bot_messenger/callbacks.py, `__init__`). -/
structure CallbacksState where
  received_events : List String
  rooms_pending : List (String × List BaseMessage)
  user_rooms_pending : List (String × List BaseMessage)
  deriving DecidableEq, Repr

/-- The state right after `Callbacks.__init__`. -/
def initialState : CallbacksState := ⟨[], [], []⟩

/-- Externally visible actions issued by the coordinator (the Transport
calls of the spec): a room-creation request, a message send attempt, and
a history-key share. -/
inductive Effect where
  | createChannel (user : String)
  | send (msg : BaseMessage)
  | sendSharedHistoryKeys (room_id : String) (users : List String)
  deriving DecidableEq, Repr

/-- The environment a single `notification` call runs against: the
client's room map at lookup time (line 72), the result of
`create_private_room` (`some roomId` for a `RoomCreateResponse`, `none`
for a failure), and the client's room map when the creation response is
processed (the race check at line 87 — syncs may have landed during the
await). -/
structure Env where
  rooms : List MatrixRoom
  createResp : Option String
  roomsAfterCreate : List MatrixRoom
  deriving DecidableEq, Repr

/-- src/bot_messenger/callbacks.py line 23. -/
def DUPLICATES_CACHE_SIZE : Nat := 1000

/-- `Callbacks.trim_duplicates_caches` (lines 43-45): if the cache has
grown beyond the cap, keep only the first (most recent) cap entries. -/
def trim_duplicates_caches (st : CallbacksState) : CallbacksState :=
  if DUPLICATES_CACHE_SIZE < st.received_events.length then
    { st with received_events := st.received_events.take DUPLICATES_CACHE_SIZE }
  else st

/-- `Callbacks.should_process` (lines 47-53): skip an already seen event
id; otherwise record it at the front and proceed. -/
def should_process (st : CallbacksState) (event_id : String) :
    Bool × CallbacksState :=
  if event_id ∈ st.received_events then (false, st)
  else (true, { st with received_events := event_id :: st.received_events })

/-- `is_user_in_room` (src/bot_messenger/chat_functions.py lines 34-41). -/
def is_user_in_room (room : MatrixRoom) (mxid : String) : Bool :=
  room.users.contains mxid || room.invited_users.contains mxid

/-- `is_room_private_msg` (chat_functions.py lines 43-46). -/
def is_room_private_msg (room : MatrixRoom) (mxid : String) : Bool :=
  if room.member_count = 2 then is_user_in_room room mxid else false

/-- `find_private_msg` (chat_functions.py lines 48-61): first room of the
client's room map (in iteration order) that is a two-member room
containing `mxid`. -/
def find_private_msg (rooms : List MatrixRoom) (mxid : String) :
    Option MatrixRoom :=
  rooms.find? (fun r => is_room_private_msg r mxid)

/-- Python `room_id in self.client.rooms` plus `self.client.rooms[room_id]`. -/
def findClientRoom (rooms : List MatrixRoom) (room_id : String) :
    Option MatrixRoom :=
  rooms.find? (fun r => r.room_id == room_id)

/-- The coordinator writing `message.recipient_room_id = room_id`. -/
def setRoomId (room_id : String) (m : BaseMessage) : BaseMessage :=
  { m with recipient_room_id := some room_id }

/-- Outcome of the part of `Callbacks.notification` that runs before any
room-creation await: either the call finished (producing a new state and
an effect trace), or it issued `create_private_room` for `recipient_id`
and suspended with the pending flag held. -/
inductive SubmitStep where
  | done (st : CallbacksState) (effs : List Effect)
  | awaitingCreate (st : CallbacksState) (recipient_id : String)
  deriving DecidableEq, Repr

/-- `Callbacks.notification`, lines 61-76: everything up to (and
including) issuing `create_private_room`.  A message with a room id is
sent directly (line 65).  Otherwise, if the recipient user already has a
creation pending, the message is appended to that user's buffer and the
call returns (lines 68-70).  Otherwise an existing two-member room is
looked up (line 72): if found the message is sent there (lines 109-113);
if not, the pending flag is installed with an empty buffer (line 75) and
the creation request is issued (line 76).  The invalid shape with neither
recipient set never reaches the coordinator (the ingress rejects it). -/
def notificationPre (env : Env) (st : CallbacksState) (message : BaseMessage) :
    SubmitStep :=
  match message.recipient_room_id with
  | some _ => .done st [.send message]
  | none =>
    match message.recipient_user_id with
    | none => .done st []
    | some recipient_id =>
      if dictMem st.user_rooms_pending recipient_id then
        .done { st with user_rooms_pending :=
                  (dictSet st.user_rooms_pending recipient_id
                    (((dictGet st.user_rooms_pending recipient_id).getD []) ++ [message])) }
             []
      else
        match find_private_msg env.rooms recipient_id with
        | some msg_room =>
            .done st [.send (setRoomId msg_room.room_id message)]
        | none =>
            .awaitingCreate
              { st with user_rooms_pending :=
                  dictSet st.user_rooms_pending recipient_id [] }
              recipient_id

/-- `Callbacks.notification`, lines 77-108: processing the
`create_private_room` response.  On failure the call just logs and
returns, leaving the state untouched (lines 102-104).  On success the
buffered messages are copied into `rooms_pending` under the new room id,
the user's pending entry is deleted, room ids are written into the
buffered messages (lines 79-84), and the race check of line 87 runs: if
the new room is already known and encrypted, the triggering message is
appended and the whole queue is sent and dropped (lines 87-100);
otherwise the triggering message is appended and the call returns,
leaving the queue for the encryption callback (lines 106-108). -/
def notificationPost (env : Env) (st : CallbacksState) (message : BaseMessage)
    (recipient_id : String) : CallbacksState × List Effect :=
  match env.createResp with
  | none => (st, [])
  | some recipient_room_id =>
    let buffered := (dictGet st.user_rooms_pending recipient_id).getD []
    let st1 : CallbacksState :=
      { st with
        rooms_pending := dictSet st.rooms_pending recipient_room_id buffered,
        user_rooms_pending := dictDel st.user_rooms_pending recipient_id }
    let updated := buffered.map (setRoomId recipient_room_id)
    let st2 : CallbacksState :=
      { st1 with rooms_pending := dictSet st1.rooms_pending recipient_room_id updated }
    let ready :=
      match findClientRoom env.roomsAfterCreate recipient_room_id with
      | some room => room.encrypted
      | none => false
    if ready then
      let queue := updated ++ [setRoomId recipient_room_id message]
      ({ st2 with rooms_pending := dictDel st2.rooms_pending recipient_room_id },
       queue.map Effect.send)
    else
      ({ st2 with rooms_pending :=
           (dictSet st2.rooms_pending recipient_room_id
             (updated ++ [setRoomId recipient_room_id message])) },
       [])

/-- A full, uninterrupted `Callbacks.notification` call: the pre-await
phase followed (when a creation was issued) by the response phase. -/
def notification (env : Env) (st : CallbacksState) (message : BaseMessage) :
    CallbacksState × List Effect :=
  match notificationPre env st message with
  | .done st' effs => (st', effs)
  | .awaitingCreate st1 recipient_id =>
    let r := notificationPost env st1 message recipient_id
    (r.1, Effect.createChannel recipient_id :: r.2)

/-- A sequence of full `notification` calls, accumulating the effect
trace. -/
def submitAll (env : Env) : CallbacksState → List BaseMessage →
    CallbacksState × List Effect
  | st, [] => (st, [])
  | st, m :: rest =>
    let r1 := notification env st m
    let r2 := submitAll env r1.1 rest
    (r2.1, r1.2 ++ r2.2)

/-- The interleaving the spec's concurrency story is about: `msg0` runs
up to its `create_private_room` await; while it is suspended the calls
for `others` run to completion; then `msg0`'s creation response is
processed.  When `msg0` never suspends this is just its ordinary call. -/
def notificationInterleaved (env : Env) (st : CallbacksState)
    (msg0 : BaseMessage) (others : List BaseMessage) :
    CallbacksState × List Effect :=
  match notificationPre env st msg0 with
  | .done st' effs => (st', effs)
  | .awaitingCreate st1 recipient_id =>
    let r2 := submitAll env st1 others
    let r3 := notificationPost env r2.1 msg0 recipient_id
    (r3.1, Effect.createChannel recipient_id :: (r2.2 ++ r3.2))

/-- Truthiness of `self.config.notifications_room and room.room_id ==
self.config.notifications_room` (line 132): `None` and the empty string
are falsy. -/
def notificationsRoomMatches (config : Config) (room_id : String) : Bool :=
  match config.notifications_room with
  | none => false
  | some r => (r ≠ "" : Bool) && (room_id = r : Bool)

/-- `Callbacks.member` (lines 123-155): skip the logging room; trim the
dedup cache; drop replayed event ids; ignore the bot's own membership
changes; on a join, share history keys with the joining user.  The
pending queues are not touched. -/
def member (config : Config) (bot_user : String) (st : CallbacksState)
    (room_id : String) (event : RoomMemberEvent) :
    CallbacksState × List Effect :=
  if notificationsRoomMatches config room_id then (st, [])
  else
    let st1 := trim_duplicates_caches st
    let r := should_process st1 event.event_id
    if r.1 = false then (r.2, [])
    else if event.state_key = bot_user then (r.2, [])
    else if event.membership = "join" then
      (r.2, [.sendSharedHistoryKeys room_id [event.sender]])
    else (r.2, [])

/-- `Callbacks.room_encryption` (lines 157-176): if the room has a
pending queue, send every queued message in list order and drop the
entry; otherwise do nothing.  The event (and in particular its id) is
never read: the handler performs no deduplication. -/
def room_encryption (st : CallbacksState) (room_id : String)
    (_event_id : String) : CallbacksState × List Effect :=
  match dictGet st.rooms_pending room_id with
  | some msgs =>
      ({ st with rooms_pending := dictDel st.rooms_pending room_id },
       msgs.map Effect.send)
  | none => (st, [])

/-- Number of `createChannel` requests in an effect trace. -/
def countCreates (effs : List Effect) : Nat :=
  (effs.filter fun e =>
    match e with
    | .createChannel _ => true
    | _ => false).length

/-- The payload tags of the messages handed to `Transport.send`, in
trace order. -/
def sendData (effs : List Effect) : List Nat :=
  effs.filterMap fun e =>
    match e with
    | .send m => some m.data
    | _ => none

/-! ## Basic dictionary lemmas -/

theorem dictGet_dictSet_self {α : Type} (m : List (String × α)) (k : String)
    (v : α) : dictGet (dictSet m k v) k = some v := by
  induction m with
  | nil => simp [dictSet, dictGet]
  | cons p rest ih =>
    obtain ⟨k', v'⟩ := p
    by_cases h : k = k'
    · simp [dictSet, dictGet, h]
    · simp [dictSet, dictGet, h, ih]

theorem dictGet_dictSet_ne {α : Type} (m : List (String × α)) (k k' : String)
    (v : α) (h : k' ≠ k) : dictGet (dictSet m k v) k' = dictGet m k' := by
  induction m with
  | nil => simp [dictSet, dictGet, h]
  | cons p rest ih =>
    obtain ⟨k₀, v₀⟩ := p
    by_cases hk : k = k₀
    · subst hk
      simp [dictSet, dictGet, h]
    · by_cases hk' : k' = k₀ <;> simp [dictSet, dictGet, hk, hk', ih]

theorem dictGet_dictDel_self {α : Type} (m : List (String × α)) (k : String) :
    dictGet (dictDel m k) k = none := by
  induction m with
  | nil => simp [dictDel, dictGet]
  | cons p rest ih =>
    obtain ⟨k', v'⟩ := p
    by_cases h : k = k'
    · subst h
      simp [dictDel, ih]
    · simp [dictDel, dictGet, h, ih]

theorem dictGet_dictDel_ne {α : Type} (m : List (String × α)) (k k' : String)
    (h : k' ≠ k) : dictGet (dictDel m k) k' = dictGet m k' := by
  induction m with
  | nil => simp [dictDel]
  | cons p rest ih =>
    obtain ⟨k₀, v₀⟩ := p
    by_cases hk : k = k₀
    · subst hk
      simp [dictDel, dictGet, h, ih]
    · by_cases hk' : k' = k₀ <;> simp [dictDel, dictGet, hk, hk', ih]

theorem dictSet_dictSet {α : Type} (m : List (String × α)) (k : String)
    (a b : α) : dictSet (dictSet m k a) k b = dictSet m k b := by
  induction m with
  | nil => simp [dictSet]
  | cons p rest ih =>
    obtain ⟨k', v'⟩ := p
    by_cases h : k = k'
    · simp [dictSet, h]
    · simp [dictSet, h, ih]

theorem dictSet_get_self {α : Type} (m : List (String × α)) (k : String)
    (v : α) (h : dictGet m k = some v) : dictSet m k v = m := by
  induction m with
  | nil => simp [dictGet] at h
  | cons p rest ih =>
    obtain ⟨k', v'⟩ := p
    by_cases hk : k = k'
    · subst hk
      simp [dictGet] at h
      simp [dictSet, h]
    · simp [dictGet, hk] at h
      simp [dictSet, hk, ih h]

/-! ## Structural lemmas about the coordinator operations -/

/-- A `submit` whose recipient user already has a creation pending only
appends the message to that user's buffer and issues no Transport call
(src/bot_messenger/callbacks.py lines 68-70). -/
theorem notification_pending (env : Env) (st : CallbacksState)
    (m : BaseMessage) (u : String)
    (hm : m.recipient_room_id = none) (hu : m.recipient_user_id = some u)
    (hp : dictMem st.user_rooms_pending u = true) :
    notification env st m =
      ({ st with user_rooms_pending :=
           (dictSet st.user_rooms_pending u
             (((dictGet st.user_rooms_pending u).getD []) ++ [m])) }, []) := by
  simp [notification, notificationPre, hm, hu, hp]

/-- A `submit` for an unseen user (no pending creation, no existing
two-member room) installs the pending flag with an empty buffer and
suspends at the creation request (lines 72-76). -/
theorem notificationPre_unseen (env : Env) (st : CallbacksState)
    (m : BaseMessage) (u : String)
    (hm : m.recipient_room_id = none) (hu : m.recipient_user_id = some u)
    (hp : dictMem st.user_rooms_pending u = false)
    (hfind : find_private_msg env.rooms u = none) :
    notificationPre env st m =
      .awaitingCreate
        { st with user_rooms_pending := dictSet st.user_rooms_pending u [] }
        u := by
  simp [notificationPre, hm, hu, hp, hfind]

/-- An effect trace made only of sends contains no creation request. -/
theorem countCreates_map_send (l : List BaseMessage) :
    countCreates (l.map Effect.send) = 0 := by
  induction l with
  | nil => rfl
  | cons a l ih => simp [countCreates, List.filter]

/-- A creation request at the front of a trace adds one to the count. -/
theorem countCreates_cons_create (v : String) (l : List Effect) :
    countCreates (Effect.createChannel v :: l) = countCreates l + 1 := by
  simp [countCreates, List.filter, Nat.add_comm]

/-- Processing a creation response issues sends only, never another
creation request. -/
theorem countCreates_notificationPost (env : Env) (st : CallbacksState)
    (m : BaseMessage) (u : String) :
    countCreates (notificationPost env st m u).2 = 0 := by
  unfold notificationPost
  cases env.createResp with
  | none => simp [countCreates]
  | some rid =>
    simp only []
    split
    · exact countCreates_map_send _
    · simp [countCreates]

/-- Submitting a batch of messages for a user whose creation is pending
produces no effects and only extends that user's buffer, in order. -/
theorem submitAll_pending (env : Env) (msgs : List BaseMessage)
    (st : CallbacksState) (u : String)
    (hp : dictMem st.user_rooms_pending u = true)
    (hmsgs : ∀ m ∈ msgs, m.recipient_room_id = none ∧ m.recipient_user_id = some u) :
    (submitAll env st msgs).2 = [] ∧
    (submitAll env st msgs).1.user_rooms_pending =
      dictSet st.user_rooms_pending u
        (((dictGet st.user_rooms_pending u).getD []) ++ msgs) ∧
    (submitAll env st msgs).1.rooms_pending = st.rooms_pending ∧
    (submitAll env st msgs).1.received_events = st.received_events := by
  induction msgs generalizing st with
  | nil =>
    obtain ⟨buf, hbuf⟩ : ∃ b, dictGet st.user_rooms_pending u = some b := by
      cases h : dictGet st.user_rooms_pending u with
      | none => simp [dictMem, h] at hp
      | some b => exact ⟨b, rfl⟩
    refine ⟨rfl, ?_, rfl, rfl⟩
    simp [submitAll, hbuf, dictSet_get_self st.user_rooms_pending u buf hbuf]
  | cons m rest ih =>
    obtain ⟨hm, hu⟩ := hmsgs m (List.mem_cons_self m rest)
    obtain ⟨buf, hbuf⟩ : ∃ b, dictGet st.user_rooms_pending u = some b := by
      cases h : dictGet st.user_rooms_pending u with
      | none => simp [dictMem, h] at hp
      | some b => exact ⟨b, rfl⟩
    have hstep := notification_pending env st m u hm hu hp
    have hp1 : dictMem
        ({ st with user_rooms_pending :=
            (dictSet st.user_rooms_pending u
              (((dictGet st.user_rooms_pending u).getD []) ++ [m])) } :
          CallbacksState).user_rooms_pending u = true := by
      simp [dictMem, dictGet_dictSet_self]
    have ih' := ih _ hp1 (fun x hx => hmsgs x (List.mem_cons_of_mem m hx))
    obtain ⟨ihe, ihu, ihr, ihv⟩ := ih'
    simp only [submitAll, hstep]
    refine ⟨by simpa using ihe, ?_, by simpa using ihr, by simpa using ihv⟩
    rw [ihu]
    simp [hbuf, dictGet_dictSet_self, dictSet_dictSet]

/-- The coordinator state carried by either outcome of the pre-await
phase. -/
def SubmitStep.state : SubmitStep → CallbacksState
  | .done st _ => st
  | .awaitingCreate st _ => st

/-- The pre-await phase of `notification` never touches the dedup cache. -/
theorem notificationPre_received_events (env : Env) (st : CallbacksState)
    (m : BaseMessage) :
    (notificationPre env st m).state.received_events = st.received_events := by
  unfold notificationPre
  split
  · rfl
  · split
    · rfl
    · split
      · rfl
      · split <;> rfl

/-- Processing a creation response never touches the dedup cache. -/
theorem notificationPost_received_events (env : Env) (st : CallbacksState)
    (m : BaseMessage) (u : String) :
    (notificationPost env st m u).1.received_events = st.received_events := by
  unfold notificationPost
  split
  · rfl
  · split <;> dsimp only <;> first
      | rfl
      | (split <;> rfl)

/-- `notification` never touches the dedup cache. -/
theorem notification_received_events (env : Env) (st : CallbacksState)
    (m : BaseMessage) :
    (notification env st m).1.received_events = st.received_events := by
  unfold notification
  cases hpre : notificationPre env st m with
  | done st' effs =>
    have h := notificationPre_received_events env st m
    rw [hpre] at h
    exact h
  | awaitingCreate st1 u =>
    have h := notificationPre_received_events env st m
    rw [hpre] at h
    simpa [notificationPost_received_events] using h

/-- `room_encryption` never touches the dedup cache. -/
theorem room_encryption_received_events (st : CallbacksState)
    (room_id e : String) :
    (room_encryption st room_id e).1.received_events = st.received_events := by
  unfold room_encryption
  split <;> rfl

/-- After one `room_encryption` run for a room, a second run for the same
room changes nothing and sends nothing: the queue entry is gone. -/
theorem room_encryption_second_run (st : CallbacksState) (C e1 e2 : String) :
    (room_encryption (room_encryption st C e1).1 C e2).1 =
      (room_encryption st C e1).1 ∧
    (room_encryption (room_encryption st C e1).1 C e2).2 = [] := by
  unfold room_encryption
  cases h : dictGet st.rooms_pending C with
  | none => simp [h]
  | some msgs => simp [h, dictGet_dictDel_self]

/-- The dedup sequence every deduplicating handler runs: trim the cache,
then record-or-skip the event id. -/
def dedupStep (st : CallbacksState) (e : String) : CallbacksState :=
  (should_process (trim_duplicates_caches st) e).2

/-- The length recurrence of the dedup cache under a fresh event id. -/
def cacheLenStep (n : Nat) : Nat :=
  (if DUPLICATES_CACHE_SIZE < n then DUPLICATES_CACHE_SIZE else n) + 1

/-- A sequence of `member` callbacks for the same room, keeping only the
final state. -/
def runMember (config : Config) (bot room_id : String) :
    CallbacksState → List RoomMemberEvent → CallbacksState
  | st, [] => st
  | st, ev :: rest =>
      runMember config bot room_id (member config bot st room_id ev).1 rest

/-- Outside the logging room, the state change of a `member` callback is
exactly the dedup sequence (trim, then record-or-skip). -/
theorem member_state_eq_dedupStep (config : Config) (bot : String)
    (st : CallbacksState) (room_id : String) (ev : RoomMemberEvent)
    (h : notificationsRoomMatches config room_id = false) :
    (member config bot st room_id ev).1 = dedupStep st ev.event_id := by
  unfold member dedupStep
  rw [h]
  simp only [Bool.false_eq_true, if_false]
  split
  · rfl
  · split
    · rfl
    · split <;> rfl

/-- A sequence of dedup steps. -/
def runDedup (st : CallbacksState) (ids : List String) : CallbacksState :=
  ids.foldl dedupStep st

theorem runMember_eq_runDedup (config : Config) (bot room_id : String)
    (h : notificationsRoomMatches config room_id = false)
    (evs : List RoomMemberEvent) (st : CallbacksState) :
    runMember config bot room_id st evs =
      runDedup st (evs.map RoomMemberEvent.event_id) := by
  induction evs generalizing st with
  | nil => rfl
  | cons ev rest ih =>
    simp only [runMember, List.map, runDedup, List.foldl]
    rw [member_state_eq_dedupStep config bot st room_id ev h]
    exact ih _

/-- A fresh event id is recorded at the front of the trimmed cache. -/
theorem dedupStep_fresh (st : CallbacksState) (i : String)
    (hi : i ∉ st.received_events) :
    (dedupStep st i).received_events =
      i :: (trim_duplicates_caches st).received_events := by
  have hi' : i ∉ (trim_duplicates_caches st).received_events := by
    intro hm
    apply hi
    unfold trim_duplicates_caches at hm
    split at hm
    · exact List.mem_of_mem_take hm
    · exact hm
  unfold dedupStep should_process
  simp [hi']

/-- One fresh dedup step changes the cache length by the trim-then-insert
recurrence. -/
theorem dedupStep_length_fresh (st : CallbacksState) (i : String)
    (hi : i ∉ st.received_events) :
    (dedupStep st i).received_events.length =
      cacheLenStep st.received_events.length := by
  rw [dedupStep_fresh st i hi]
  simp only [List.length_cons]
  by_cases hc : DUPLICATES_CACHE_SIZE < st.received_events.length
  · simp only [trim_duplicates_caches, cacheLenStep, hc, if_true, List.length_take]
    omega
  · simp only [trim_duplicates_caches, cacheLenStep, hc, if_false]

/-- Running the dedup sequence over pairwise-distinct, unseen event ids
iterates the length recurrence once per id. -/
theorem runDedup_length_fresh (ids : List String) (st : CallbacksState)
    (hnd : ids.Nodup) (hfresh : ∀ i ∈ ids, i ∉ st.received_events) :
    (runDedup st ids).received_events.length =
      Nat.iterate cacheLenStep ids.length st.received_events.length := by
  induction ids generalizing st with
  | nil => rfl
  | cons i rest ih =>
    have hi : i ∉ st.received_events := hfresh i (List.mem_cons_self i rest)
    have hfresh' : ∀ j ∈ rest, j ∉ (dedupStep st i).received_events := by
      intro j hj
      rw [dedupStep_fresh st i hi]
      intro hmem
      rcases List.mem_cons.mp hmem with h1 | h2
      · exact (List.nodup_cons.mp hnd).1 (h1 ▸ hj)
      · apply hfresh j (List.mem_cons_of_mem i hj)
        unfold trim_duplicates_caches at h2
        split at h2
        · exact List.mem_of_mem_take h2
        · exact h2
    have hrec := ih (dedupStep st i) (List.nodup_cons.mp hnd).2 hfresh'
    simp only [runDedup, List.foldl] at hrec ⊢
    rw [hrec, dedupStep_length_fresh st i hi, List.length_cons,
      Function.iterate_succ_apply]

/-- Closed form of the length recurrence from an empty cache: up to
`DUPLICATES_CACHE_SIZE + 1` fresh ids the cache grows by one per id. -/
theorem cacheLenStep_iterate (k : Nat) (h : k ≤ DUPLICATES_CACHE_SIZE + 1) :
    Nat.iterate cacheLenStep k 0 = k := by
  induction k with
  | zero => rfl
  | succ n ih =>
    rw [Function.iterate_succ_apply', ih (Nat.le_of_succ_le h)]
    have h1000 : DUPLICATES_CACHE_SIZE = 1000 := rfl
    have hn : ¬ DUPLICATES_CACHE_SIZE < n := by omega
    simp only [cacheLenStep, hn, if_false]

/-- An injection of numbers into event-id strings (distinct lengths give
distinct strings). -/
def strOfNat (n : Nat) : String := String.mk (List.replicate n 'a')

theorem strOfNat_injective : Function.Injective strOfNat := by
  intro a b h
  have hdata : List.replicate a 'a' = List.replicate b 'a' :=
    congrArg String.data h
  have hlen := congrArg List.length hdata
  simpa using hlen

/-- 1001 pairwise-distinct event ids. -/
def eventIds : List String := (List.range 1001).map strOfNat

theorem eventIds_nodup : eventIds.Nodup :=
  (List.nodup_range 1001).map strOfNat_injective

theorem eventIds_length : eventIds.length = 1001 := by
  simp [eventIds]

/-- A join membership event (from a user other than the bot) carrying a
given event id. -/
def joinEventOf (i : String) : RoomMemberEvent := ⟨i, "u", "join", "u"⟩

/-- 1001 distinct join events. -/
def events1001 : List RoomMemberEvent := eventIds.map joinEventOf

theorem events1001_ids :
    events1001.map RoomMemberEvent.event_id = eventIds := by
  have h : RoomMemberEvent.event_id ∘ joinEventOf = id := by
    funext i
    rfl
  simp [events1001, List.map_map, h]

theorem events1001_length : events1001.length = 1001 := by
  simp [events1001, eventIds_length]

/-! ## Concrete inputs used by witnesses and counterexamples -/

/-- First message addressed to user `u` (no room id yet). -/
def msgA : BaseMessage := ⟨some "u", none, 0⟩

/-- Second message to the same user. -/
def msgB : BaseMessage := ⟨some "u", none, 1⟩

/-- Third message to the same user. -/
def msgD : BaseMessage := ⟨some "u", none, 2⟩

/-- The freshly created room, already synced and encrypted. -/
def roomReady : MatrixRoom := ⟨"C", true, ["u", "bot"], [], 2⟩

/-- A two-member room for `u` whose encryption is not yet active and
where `u` is only invited. -/
def roomNotReady : MatrixRoom := ⟨"C", false, ["bot"], ["u"], 2⟩

/-- Creation succeeds with room `C`; by the time the response is
processed the room has synced and is encrypted. -/
def envReady : Env := ⟨[], some "C", [roomReady]⟩

/-- Creation succeeds with room `C`, but the room has not synced as
encrypted when the response is processed. -/
def envNotReady : Env := ⟨[], some "C", [roomNotReady]⟩

/-- Creation fails. -/
def envFail : Env := ⟨[], none, []⟩

/-- The client already has a (not ready) two-member room with `u`. -/
def envFound : Env := ⟨[roomNotReady], none, []⟩

/-- A `Callbacks` state holding one queued message for room `C`. -/
def stWithQueue : CallbacksState := ⟨[], [("C", [msgA])], []⟩

/-- A `Callbacks` state in which a creation for `u` is pending with one
buffered message. -/
def stPendingBuf : CallbacksState := ⟨[], [], [("u", [msgB])]⟩

/-- A configuration without a logging room. -/
def cfgNone : Config := ⟨none⟩

/-- A join event for user `u2`, not the bot. -/
def evJoin : RoomMemberEvent := ⟨"ev1", "u2", "join", "u2"⟩

/-! ## The claims -/

/-- Claim C1: a `submit` whose message has no recipient room and whose
recipient user already has a creation pending only appends the message to
that user's buffer and issues no Transport call; consequently, when a
first submit for an unseen user suspends at its creation request and any
number of further submits for the same user run during the suspension,
the whole interleaving issues exactly one `createChannel`, and the
interleaved submits themselves produce no effects while collecting the
messages, in order, into the user's buffer. -/
theorem C1_pending_buffers_single_create (env : Env) (st : CallbacksState)
    (msg0 : BaseMessage) (msgs : List BaseMessage) (u : String)
    (h0r : msg0.recipient_room_id = none) (h0u : msg0.recipient_user_id = some u)
    (hnp : dictMem st.user_rooms_pending u = false)
    (hfind : find_private_msg env.rooms u = none)
    (hmsgs : ∀ m ∈ msgs, m.recipient_room_id = none ∧ m.recipient_user_id = some u) :
    countCreates (notificationInterleaved env st msg0 msgs).2 = 1 ∧
    (submitAll env
      { st with user_rooms_pending := dictSet st.user_rooms_pending u [] } msgs).2 = [] ∧
    (submitAll env
      { st with user_rooms_pending := dictSet st.user_rooms_pending u [] }
      msgs).1.user_rooms_pending = dictSet st.user_rooms_pending u msgs := by
  have hpre := notificationPre_unseen env st msg0 u h0r h0u hnp hfind
  have hp1 : dictMem
      ({ st with user_rooms_pending := dictSet st.user_rooms_pending u [] } :
        CallbacksState).user_rooms_pending u = true := by
    simp [dictMem, dictGet_dictSet_self]
  obtain ⟨se, su, _, _⟩ := submitAll_pending env msgs
    { st with user_rooms_pending := dictSet st.user_rooms_pending u [] } u hp1 hmsgs
  refine ⟨?_, se, ?_⟩
  · simp only [notificationInterleaved, hpre]
    rw [se]
    simp only [List.nil_append]
    rw [countCreates_cons_create, countCreates_notificationPost]
  · rw [su]
    simp [dictGet_dictSet_self, dictSet_dictSet]

/-- Witness for C1 at a concrete input: an initiating submit for the
unseen user `u` interleaved with two further submits issues exactly one
creation request. -/
theorem C1_witness :
    msgA.recipient_room_id = none ∧ msgA.recipient_user_id = some "u" ∧
    dictMem initialState.user_rooms_pending "u" = false ∧
    find_private_msg envReady.rooms "u" = none ∧
    (∀ m ∈ [msgB, msgD], m.recipient_room_id = none ∧ m.recipient_user_id = some "u") ∧
    countCreates (notificationInterleaved envReady initialState msgA [msgB, msgD]).2 = 1 :=
  ⟨rfl, rfl, by decide, by decide, by decide,
    (C1_pending_buffers_single_create envReady initialState msgA [msgB, msgD] "u"
      rfl rfl (by decide) (by decide) (by decide)).1⟩

/-- Claim C2 (code bug, evaluated at the failing input): when
`create_private_room` fails for user `u` after one message was buffered
during the suspension, src/bot_messenger/callbacks.py lines 102-104 only
log and return.  Contrary to the claim, the buffered messages are not
taken, nothing is reported as failed, and `u`'s pending flag is NOT
cleared, so a later submit for `u` buffers again (with no fresh creation
attempt) instead of starting over. -/
theorem C2_creation_failure_keeps_pending :
    (notificationInterleaved envFail initialState msgA [msgB]).2 =
      [Effect.createChannel "u"] ∧
    dictGet (notificationInterleaved envFail initialState
        msgA [msgB]).1.user_rooms_pending "u" = some [msgB] ∧
    (notification envFail
      (notificationInterleaved envFail initialState msgA [msgB]).1 msgD).2 = [] ∧
    dictGet (notification envFail
        (notificationInterleaved envFail initialState msgA [msgB]).1
        msgD).1.user_rooms_pending "u" = some [msgB, msgD] := by
  decide

/-- Claim C3: if, when the creation success response for user `u` is
processed, the new room `C` is already in the client's room map with
encryption active, then the buffered messages and the triggering message
are all sent within the same `notification` call (room ids filled in,
buffered messages first, in order, the trigger last) and both the room
queue and the user's pending entry are gone — no message is left
stranded waiting for a later event. -/
theorem C3_late_ready_race_flushes_in_call (env : Env) (st : CallbacksState)
    (message : BaseMessage) (u C : String) (buf : List BaseMessage)
    (room : MatrixRoom)
    (hbuf : dictGet st.user_rooms_pending u = some buf)
    (hresp : env.createResp = some C)
    (hroom : findClientRoom env.roomsAfterCreate C = some room)
    (henc : room.encrypted = true) :
    (notificationPost env st message u).2 =
      ((buf.map (setRoomId C)) ++ [setRoomId C message]).map Effect.send ∧
    dictGet (notificationPost env st message u).1.rooms_pending C = none ∧
    dictGet (notificationPost env st message u).1.user_rooms_pending u = none := by
  unfold notificationPost
  rw [hresp]
  simp [hbuf, hroom, henc, dictGet_dictDel_self]

/-- Witness for C3 at a concrete input: one buffered message plus the
trigger are flushed inside the call when the room is already encrypted. -/
theorem C3_witness :
    dictGet stPendingBuf.user_rooms_pending "u" = some [msgB] ∧
    envReady.createResp = some "C" ∧
    findClientRoom envReady.roomsAfterCreate "C" = some roomReady ∧
    roomReady.encrypted = true ∧
    (notificationPost envReady stPendingBuf msgA "u").2 =
      (([msgB].map (setRoomId "C")) ++ [setRoomId "C" msgA]).map Effect.send ∧
    dictGet (notificationPost envReady stPendingBuf msgA "u").1.rooms_pending "C" = none ∧
    dictGet (notificationPost envReady stPendingBuf msgA "u").1.user_rooms_pending "u" = none := by
  refine ⟨by decide, rfl, by decide, rfl, ?_⟩
  have h := C3_late_ready_race_flushes_in_call envReady stPendingBuf msgA "u" "C"
    [msgB] roomReady (by decide) rfl (by decide) rfl
  exact ⟨h.1, h.2.1, h.2.2⟩

/-- Claim C4: running `room_encryption` for the same room twice in
succession is idempotent: after the first run drains (or finds no) queue
for the room, the second run leaves the state exactly as it was and
sends nothing — the queue entry no longer exists. -/
theorem C4_duplicate_readiness_noop (st : CallbacksState) (C e1 e2 : String) :
    (room_encryption (room_encryption st C e1).1 C e2).1 =
      (room_encryption st C e1).1 ∧
    (room_encryption (room_encryption st C e1).1 C e2).2 = [] :=
  room_encryption_second_run st C e1 e2

/-- Counterexample to claim C5 as stated: `msgA` (payload 0) is
submitted first and triggers the creation; `msgB` (payload 1) is
submitted second, during the suspension.  The flush hands payloads
`[1, 0]` to `Transport.send` — the triggering message, although
submitted first, is appended last and sent last, so sends are NOT in
submission order `[0, 1]`. -/
theorem C5_counterexample :
    sendData (notificationInterleaved envReady initialState msgA [msgB]).2 =
      [msgB.data, msgA.data] ∧
    [msgB.data, msgA.data] ≠ [msgA.data, msgB.data] := by
  decide

/-- Claim C5 (amended): for messages eventually flushed to one created
channel, the messages buffered during the creation are sent in their
arrival order and the triggering (first-submitted) message is appended
and sent last — both when the race check flushes inside the submit call
and when a later security event drains the queue front to back.  Sends
therefore follow submission order only for the buffered suffix; the
initiating message is delivered after it. -/
theorem C5_buffered_order_trigger_last (env : Env) (st : CallbacksState)
    (msg0 : BaseMessage) (msgs : List BaseMessage) (u C e : String)
    (room : MatrixRoom)
    (h0r : msg0.recipient_room_id = none) (h0u : msg0.recipient_user_id = some u)
    (hnp : dictMem st.user_rooms_pending u = false)
    (hfind : find_private_msg env.rooms u = none)
    (hmsgs : ∀ m ∈ msgs, m.recipient_room_id = none ∧ m.recipient_user_id = some u)
    (hresp : env.createResp = some C)
    (hroom : findClientRoom env.roomsAfterCreate C = some room) :
    (room.encrypted = true →
      (notificationInterleaved env st msg0 msgs).2 =
        Effect.createChannel u ::
          ((msgs.map (setRoomId C)) ++ [setRoomId C msg0]).map Effect.send) ∧
    (room.encrypted = false →
      dictGet (notificationInterleaved env st msg0 msgs).1.rooms_pending C =
        some ((msgs.map (setRoomId C)) ++ [setRoomId C msg0]) ∧
      (room_encryption (notificationInterleaved env st msg0 msgs).1 C e).2 =
        ((msgs.map (setRoomId C)) ++ [setRoomId C msg0]).map Effect.send) := by
  have hpre := notificationPre_unseen env st msg0 u h0r h0u hnp hfind
  have hp1 : dictMem
      ({ st with user_rooms_pending := dictSet st.user_rooms_pending u [] } :
        CallbacksState).user_rooms_pending u = true := by
    simp [dictMem, dictGet_dictSet_self]
  obtain ⟨se, su, _, _⟩ := submitAll_pending env msgs
    { st with user_rooms_pending := dictSet st.user_rooms_pending u [] } u hp1 hmsgs
  have hbuf2 : dictGet (submitAll env
      { st with user_rooms_pending := dictSet st.user_rooms_pending u [] }
      msgs).1.user_rooms_pending u = some msgs := by
    rw [su]
    simp [dictGet_dictSet_self]
  constructor
  · intro henc
    simp only [notificationInterleaved, hpre]
    rw [se]
    simp only [List.nil_append]
    unfold notificationPost
    rw [hresp]
    simp [hbuf2, hroom, henc]
  · intro henc
    have hqueue : dictGet (notificationInterleaved env st msg0
        msgs).1.rooms_pending C =
        some ((msgs.map (setRoomId C)) ++ [setRoomId C msg0]) := by
      simp only [notificationInterleaved, hpre]
      unfold notificationPost
      rw [hresp]
      simp [hbuf2, hroom, henc, dictGet_dictSet_self]
    refine ⟨hqueue, ?_⟩
    unfold room_encryption
    rw [hqueue]

/-- Witness for (amended) C5 at a concrete input: with the room not yet
encrypted at response time, the queue for `C` holds the buffered message
first and the trigger last, and the encryption event flushes it in that
order. -/
theorem C5_witness :
    msgA.recipient_room_id = none ∧ msgA.recipient_user_id = some "u" ∧
    dictMem initialState.user_rooms_pending "u" = false ∧
    find_private_msg envNotReady.rooms "u" = none ∧
    (∀ m ∈ [msgB], m.recipient_room_id = none ∧ m.recipient_user_id = some "u") ∧
    envNotReady.createResp = some "C" ∧
    findClientRoom envNotReady.roomsAfterCreate "C" = some roomNotReady ∧
    (roomNotReady.encrypted = false →
      dictGet (notificationInterleaved envNotReady initialState
          msgA [msgB]).1.rooms_pending "C" =
        some (([msgB].map (setRoomId "C")) ++ [setRoomId "C" msgA]) ∧
      (room_encryption (notificationInterleaved envNotReady initialState
          msgA [msgB]).1 "C" "e").2 =
        (([msgB].map (setRoomId "C")) ++ [setRoomId "C" msgA]).map Effect.send) :=
  ⟨rfl, rfl, by decide, by decide, by decide, rfl, by decide,
    (C5_buffered_order_trigger_last envNotReady initialState msgA [msgB] "u" "C"
      "e" roomNotReady rfl rfl (by decide) (by decide) (by decide) rfl
      (by decide)).2⟩

/-- Counterexample to claim C6 as stated: the client already has a
two-member room `C` with `u` (so `find_private_msg` finds it), but the
room is not ready — encryption is off and `u` is only invited.  The
code nevertheless sends the message immediately and enqueues nothing:
the claim's "enqueued into that channel's pending queue and not sent
immediately" fails. -/
theorem C6_counterexample :
    find_private_msg envFound.rooms "u" = some roomNotReady ∧
    roomNotReady.encrypted = false ∧
    roomNotReady.users.contains "u" = false ∧
    notification envFound initialState msgA =
      (initialState, [Effect.send (setRoomId "C" msgA)]) := by
  decide

/-- Claim C6 (amended): when `submit` resolves a message by recipient
user and `find_private_msg` finds an existing two-member room, the
message is sent to that room immediately and unconditionally — no
readiness check is made and nothing is ever enqueued on this path; the
state is unchanged. -/
theorem C6_found_room_sends_immediately (env : Env) (st : CallbacksState)
    (m : BaseMessage) (u : String) (room : MatrixRoom)
    (hm : m.recipient_room_id = none) (hu : m.recipient_user_id = some u)
    (hnp : dictMem st.user_rooms_pending u = false)
    (hfind : find_private_msg env.rooms u = some room) :
    notification env st m = (st, [Effect.send (setRoomId room.room_id m)]) := by
  simp [notification, notificationPre, hm, hu, hnp, hfind]

/-- Witness for (amended) C6 at a concrete input. -/
theorem C6_witness :
    msgA.recipient_room_id = none ∧ msgA.recipient_user_id = some "u" ∧
    dictMem initialState.user_rooms_pending "u" = false ∧
    find_private_msg envFound.rooms "u" = some roomNotReady ∧
    notification envFound initialState msgA =
      (initialState, [Effect.send (setRoomId roomNotReady.room_id msgA)]) :=
  ⟨rfl, rfl, by decide, by decide,
    C6_found_room_sends_immediately envFound initialState msgA "u" roomNotReady
      rfl rfl (by decide) (by decide)⟩

/-- Counterexample to claim C7 as stated: `room_encryption` flushes the
queue for room `C` (so processing clearly happened) while the inbound
event id `evt1` is neither checked against nor recorded in the dedup
cache — the cache stays empty, so no deduplication ran before the flush
attempt. -/
theorem C7_counterexample :
    (room_encryption stWithQueue "C" "evt1").2 = [Effect.send msgA] ∧
    (room_encryption stWithQueue "C" "evt1").1.received_events = [] := by
  decide

/-- Claim C7 (amended): the security handler performs no deduplication —
it never reads or writes the dedup cache — and replaying the same event
id is nevertheless harmless because the first run removed the room's
queue entry, so the replay sends nothing. -/
theorem C7_no_dedup_flush_idempotent (st : CallbacksState) (C e : String) :
    (room_encryption st C e).1.received_events = st.received_events ∧
    (room_encryption (room_encryption st C e).1 C e).2 = [] :=
  ⟨room_encryption_received_events st C e,
   (room_encryption_second_run st C e e).2⟩

/-- Counterexample to claim C8 as stated: room `C` has a pending queue
holding `msgA` and a (fresh, non-self) join event arrives for it, yet
`member` only shares history keys — it sends none of the queued
messages and leaves the queue untouched; no `drainIfReady` is
attempted. -/
theorem C8_counterexample :
    dictGet stWithQueue.rooms_pending "C" = some [msgA] ∧
    (member cfgNone "bot" stWithQueue "C" evJoin).2 =
      [Effect.sendSharedHistoryKeys "C" ["u2"]] ∧
    (member cfgNone "bot" stWithQueue "C" evJoin).1.rooms_pending =
      stWithQueue.rooms_pending := by
  decide

/-- Claim C8 (amended): for every fresh join event that is not the bot's
own membership change (and not in the logging room), `member` shares
history keys with the joining user; it never attempts to drain the
room's pending queue — `rooms_pending` is left exactly as it was. -/
theorem C8_join_shares_keys_no_drain (config : Config) (bot : String)
    (st : CallbacksState) (room_id : String) (ev : RoomMemberEvent)
    (hchk : notificationsRoomMatches config room_id = false)
    (hfresh : ev.event_id ∉ st.received_events)
    (hself : ev.state_key ≠ bot)
    (hjoin : ev.membership = "join") :
    (member config bot st room_id ev).2 =
      [Effect.sendSharedHistoryKeys room_id [ev.sender]] ∧
    (member config bot st room_id ev).1.rooms_pending = st.rooms_pending := by
  have hfresh' : ev.event_id ∉ (trim_duplicates_caches st).received_events := by
    intro hmem
    apply hfresh
    unfold trim_duplicates_caches at hmem
    split at hmem
    · exact List.mem_of_mem_take hmem
    · exact hmem
  have htrim : (trim_duplicates_caches st).rooms_pending = st.rooms_pending := by
    unfold trim_duplicates_caches
    split <;> rfl
  unfold member
  rw [hchk]
  simp only [Bool.false_eq_true, if_false]
  unfold should_process
  rw [if_neg hfresh']
  simp [hself, hjoin, htrim]

/-- Witness for (amended) C8 at a concrete input. -/
theorem C8_witness :
    notificationsRoomMatches cfgNone "C" = false ∧
    evJoin.event_id ∉ stWithQueue.received_events ∧
    evJoin.state_key ≠ "bot" ∧
    evJoin.membership = "join" ∧
    (member cfgNone "bot" stWithQueue "C" evJoin).2 =
      [Effect.sendSharedHistoryKeys "C" [evJoin.sender]] ∧
    (member cfgNone "bot" stWithQueue "C" evJoin).1.rooms_pending =
      stWithQueue.rooms_pending :=
  ⟨rfl, by decide, by decide, rfl,
    (C8_join_shares_keys_no_drain cfgNone "bot" stWithQueue "C" evJoin rfl
      (by decide) (by decide) rfl).1,
    (C8_join_shares_keys_no_drain cfgNone "bot" stWithQueue "C" evJoin rfl
      (by decide) (by decide) rfl).2⟩

/-- The dedup cache length after processing fresh distinct ids through
`member` callbacks, from an empty cache. -/
theorem runMember_fresh_length (config : Config) (bot room_id : String)
    (evs : List RoomMemberEvent)
    (hchk : notificationsRoomMatches config room_id = false)
    (hnd : (evs.map RoomMemberEvent.event_id).Nodup) :
    (runMember config bot room_id initialState evs).received_events.length =
      Nat.iterate cacheLenStep evs.length 0 := by
  rw [runMember_eq_runDedup config bot room_id hchk evs initialState]
  rw [runDedup_length_fresh (evs.map RoomMemberEvent.event_id) initialState hnd
    (by intro i hi; simp [initialState])]
  rw [List.length_map]
  rfl

/-- Counterexample to claim C9 as stated: after processing 1001 distinct
event ids through the `member` handler, the dedup cache holds 1001
entries, not 1000 — `trim_duplicates_caches` runs at the START of each
callback, before the insertion, so the 1001st insertion leaves the cache
one past the cap; it is only truncated when the next event arrives. -/
theorem C9_counterexample :
    (runMember cfgNone "bot" "R" initialState events1001).received_events.length
      = 1001 ∧ (1001 : Nat) ≠ 1000 := by
  constructor
  · rw [runMember_fresh_length cfgNone "bot" "R" events1001 rfl
      (events1001_ids ▸ eventIds_nodup)]
    rw [events1001_length]
    exact cacheLenStep_iterate 1001 (by decide)
  · decide

/-- Claim C9 (amended): the dedup cache is bounded by the cap plus one:
1001 distinct fresh event ids processed through the inbound `member`
handler leave the cache at 1001 entries, and the trim that runs at the
start of the NEXT handled event truncates it to the 1000 most recent
entries, evicting the oldest (tail) entries in bulk. -/
theorem C9_cap_exceeded_then_trimmed (config : Config) (bot room_id : String)
    (evs : List RoomMemberEvent)
    (hchk : notificationsRoomMatches config room_id = false)
    (hnd : (evs.map RoomMemberEvent.event_id).Nodup)
    (hlen : evs.length = 1001) :
    (runMember config bot room_id initialState evs).received_events.length
      = 1001 ∧
    (trim_duplicates_caches
        (runMember config bot room_id initialState evs)).received_events =
      (runMember config bot room_id initialState
        evs).received_events.take 1000 := by
  have h1 : (runMember config bot room_id
      initialState evs).received_events.length = 1001 := by
    rw [runMember_fresh_length config bot room_id evs hchk hnd, hlen]
    exact cacheLenStep_iterate 1001 (by decide)
  refine ⟨h1, ?_⟩
  unfold trim_duplicates_caches
  rw [if_pos (by rw [h1]; decide)]
  rfl

/-- Witness for (amended) C9 at the concrete 1001 distinct join
events. -/
theorem C9_witness :
    notificationsRoomMatches cfgNone "R" = false ∧
    (events1001.map RoomMemberEvent.event_id).Nodup ∧
    events1001.length = 1001 ∧
    ((runMember cfgNone "bot" "R" initialState events1001).received_events.length
        = 1001 ∧
      (trim_duplicates_caches
          (runMember cfgNone "bot" "R" initialState events1001)).received_events =
        (runMember cfgNone "bot" "R" initialState
          events1001).received_events.take 1000) :=
  ⟨rfl, events1001_ids ▸ eventIds_nodup, events1001_length,
    C9_cap_exceeded_then_trimmed cfgNone "bot" "R" events1001 rfl
      (events1001_ids ▸ eventIds_nodup) events1001_length⟩

/-- Claim C10: duplicate-freeness of the dedup cache is an invariant:
`should_process` inserts an id only when absent and trimming keeps a
prefix, so a dedup step preserves `Nodup`, and so does every handler —
`member`, `room_encryption` and `notification` (the latter two never
touch the cache at all). -/
theorem C10_dedup_cache_nodup_invariant (st : CallbacksState)
    (h : st.received_events.Nodup) (config : Config)
    (bot room_id eid C : String) (ev : RoomMemberEvent) (env : Env)
    (m : BaseMessage) :
    (dedupStep st eid).received_events.Nodup ∧
    (member config bot st room_id ev).1.received_events.Nodup ∧
    (room_encryption st C eid).1.received_events.Nodup ∧
    (notification env st m).1.received_events.Nodup := by
  have htrim : (trim_duplicates_caches st).received_events.Nodup := by
    unfold trim_duplicates_caches
    split
    · exact (List.take_sublist _ _).nodup h
    · exact h
  have hstep : ∀ e : String, (dedupStep st e).received_events.Nodup := by
    intro e
    unfold dedupStep should_process
    by_cases hmem : e ∈ (trim_duplicates_caches st).received_events
    · simp only [hmem, if_true]
      exact htrim
    · simp only [hmem, if_false]
      exact List.nodup_cons.mpr ⟨hmem, htrim⟩
  refine ⟨hstep eid, ?_, ?_, ?_⟩
  · by_cases hchk : notificationsRoomMatches config room_id = false
    · rw [member_state_eq_dedupStep config bot st room_id ev hchk]
      exact hstep ev.event_id
    · unfold member
      rw [eq_true_of_ne_false hchk]
      simpa using h
  · rw [room_encryption_received_events]
    exact h
  · rw [notification_received_events]
    exact h

/-- Witness for C10 at a concrete input. -/
theorem C10_witness :
    stWithQueue.received_events.Nodup ∧
    ((dedupStep stWithQueue "e").received_events.Nodup ∧
      (member cfgNone "bot" stWithQueue "C" evJoin).1.received_events.Nodup ∧
      (room_encryption stWithQueue "C" "e").1.received_events.Nodup ∧
      (notification envFail stWithQueue msgA).1.received_events.Nodup) :=
  ⟨by decide,
    C10_dedup_cache_nodup_invariant stWithQueue (by decide) cfgNone "bot" "C"
      "e" "C" evJoin envFail msgA⟩
